import Mathlib

/-!
Verification of the monty-near-cli build pipeline (src/main.rs).

The program compiles a Python source file into a NEAR-deployable WASM
contract: it discovers exported top-level functions, synthesizes a Python
dispatcher, compiles source + dispatcher to one bytecode blob via the
external Monty compiler, generates a Rust glue project from a template,
builds it with cargo, copies the artifact to the requested output path,
optionally shrinks it with wasm-opt, and (for `--compat` builds) verifies
the absence of bulk-memory instructions with wasm-tools.

The embedding below models the pure computations (name discovery over a
parsed AST, dispatcher text, template splicing, optimizer argument lists,
size-savings arithmetic) directly from the source, and models each
external process (ruff parser, Monty compiler, cargo, wasm-opt,
wasm-tools) as an abstract outcome supplied through an environment
record.  `build_contract` mirrors the control flow of the Rust function
of the same name and additionally records the sequence of observable
pipeline events, so that ordering and side-effect claims can be stated.
-/

namespace MontyNear

/-- A Python top-level statement as relevant to entry-point discovery
(src/main.rs:156-170).  Mirrors the shape of `ruff_python_ast::Stmt`:
the discovery loop only distinguishes `Stmt::FunctionDef` (whose name it
may collect) from every other statement kind.  Compound statements that
carry nested suites (class bodies, conditional branches, nested function
bodies) are represented with their nested statement lists so that the
"no recursion into nested scopes" part of the spec is expressible. -/
inductive Stmt where
  | functionDef (name : String) (body : List Stmt)
  | classDef (name : String) (body : List Stmt)
  | ifStmt (body : List Stmt) (orelse : List Stmt)
  | other

/-- A parsed Python module: the list of its top-level statements
(`parsed.into_syntax().body` in src/main.rs:158-161). -/
structure Module where
  body : List Stmt

/-- Which phase of the Monty adapter failed (src/main.rs:190-205):
`MontyRun::new` (compile) or `runner.dump()` (serialize). -/
inductive CompileStage where
  | compile
  | serialize
deriving DecidableEq

/-- The fatal error kinds of the pipeline (src/main.rs, the `bail!` and
`?`-propagated failures of `build_contract` and its stages). -/
inductive PipelineError where
  | parseError (msg : String)
  | noExports
  | compilationFailed (stage : CompileStage) (msg : String)
  | ioError (msg : String)
  | buildFailed (out err : String)
  | artifactMissing
  | optimizationFailed (err : String)
  | verificationFailed (err : String)
deriving DecidableEq

/-- Outcome of spawning one external process via
`Command::new(..).output()`: either the spawn itself failed (the binary
is absent — `Err(_)` in the Rust code), or the process ran to completion
with a success flag and captured stdout/stderr. -/
inductive SpawnResult where
  | notFound
  | exited (success : Bool) (out err : String)
deriving DecidableEq

/-- Rust `name.starts_with('_')` on the logical char-list view of the
string (src/main.rs:164). -/
def starts_with_underscore (s : String) : Bool :=
  match s.data with
  | [] => false
  | c :: _ => c == '_'

/-- The collection loop of `find_exported_functions`
(src/main.rs:160-168): walk the top-level statements in order and push
the name of every `FunctionDef` whose name does not start with `_`.
Nested suites are never entered. -/
def collectExported : List Stmt → List String
  | [] => []
  | Stmt.functionDef name _ :: rest =>
      if starts_with_underscore name then collectExported rest
      else name :: collectExported rest
  | _ :: rest => collectExported rest

/-- `find_exported_functions` (src/main.rs:156-170).  The external ruff
parser is a trusted collaborator; its result (`parse_module(source)`) is
the input here.  A parse failure is wrapped into a `ParseError`
(`map_err` at src/main.rs:157). -/
def find_exported_functions (parsed : Except String Module) :
    Except PipelineError (List String) :=
  match parsed with
  | Except.error e => Except.error (PipelineError.parseError e)
  | Except.ok m => Except.ok (collectExported m.body)

/-- Spec-side description of which top-level statement contributes an
exported name: a function definition whose name does not start with the
privacy marker `_` (stated independently of the collection loop). -/
def exported_name_of (s : Stmt) : Option String :=
  match s with
  | Stmt.functionDef name _ =>
      match name.data with
      | '_' :: _ => none
      | _ => some name
  | _ => none

/-- Erase every nested suite of a top-level statement, keeping only its
top-level shape.  Used to state that discovery never recurses into
nested scopes, classes, or conditionals. -/
def stripNested : Stmt → Stmt
  | Stmt.functionDef n _ => Stmt.functionDef n []
  | Stmt.classDef n _ => Stmt.classDef n []
  | Stmt.ifStmt _ _ => Stmt.ifStmt [] []
  | Stmt.other => Stmt.other

/-- The first branch text of the dispatcher: the `format!` string at
src/main.rs:181. -/
def if_branch (name : String) : String :=
  "if _method == \"" ++ name ++ "\":\n    " ++ name ++ "()\n"

/-- Every subsequent branch text of the dispatcher: the `format!` string
at src/main.rs:183. -/
def elif_branch (name : String) : String :=
  "elif _method == \"" ++ name ++ "\":\n    " ++ name ++ "()\n"

/-- `generate_dispatcher` (src/main.rs:177-187): fold over the method
names with the enumeration index, pushing an `if` branch for index 0 and
an `elif` branch otherwise. -/
def generate_dispatcher (method_names : List String) : String :=
  (method_names.foldl
    (fun (acc : String × Nat) name =>
      (acc.1 ++ (if acc.2 == 0 then if_branch name else elif_branch name),
       acc.2 + 1))
    ("", 0)).1

/-- Right fold concatenation of a list of strings (used to state what the
accumulating string pushes amount to). -/
def concat_all : List String → String
  | [] => ""
  | s :: rest => s ++ concat_all rest

/-- Marker line in template/src/lib.rs replaced by the bytecode static
(src/main.rs:21). -/
def MARKER_BYTECODE : String := "// @MONTY_BYTECODE_STATICS"

/-- Marker line in template/src/lib.rs replaced by the export blocks
(src/main.rs:22). -/
def MARKER_EXPORTS : String := "// @MONTY_EXPORTS"

/-- The static declaration spliced for the bytecode marker
(src/main.rs:214). -/
def bytecode_static : String :=
  "static CONTRACT_BYTECODE: &[u8] = include_bytes!(\"contract.bin\");\n"

/-- One `#[no_mangle]` export block for a method name: the `format!`
string at src/main.rs:218-220. -/
def export_block (name : String) : String :=
  "#[no_mangle]\npub extern \"C\" fn " ++ name ++
    "() \x7b\n    run_method(CONTRACT_BYTECODE, \"" ++ name ++
    "\");\n\x7d\n\n"

/-- The accumulated exports text of `generate_lib_rs`
(src/main.rs:216-221): one block pushed per method name. -/
def exports_text (method_names : List String) : String :=
  method_names.foldl (fun acc name => acc ++ export_block name) ""

/-- Replace every non-overlapping occurrence of `pat` in the list,
scanning left to right — the semantics of Rust `str::replace`
(src/main.rs:224-225).  Fuel-indexed so the recursion is structural; the
fuel is set to the list length, which one step always consumes at least
one element of.  (For an empty `pat` the behavior deviates from Rust,
but both markers are non-empty.) -/
def replace_go (pat rep : List Char) : Nat → List Char → List Char
  | _, [] => []
  | 0, l => l
  | fuel + 1, c :: rest =>
      if pat.isPrefixOf (c :: rest) then
        rep ++ replace_go pat rep fuel (rest.drop (pat.length - 1))
      else
        c :: replace_go pat rep fuel rest

/-- Rust `str::replace` on the logical char-list view of strings. -/
def string_replace (s pat rep : String) : String :=
  String.mk (replace_go pat.data rep.data s.data.length s.data)

/-- Whether a non-empty pattern occurs as a contiguous substring of the
list (an occurrence may start at any position).  Used to state, for
every template, what `string_replace` does when a splice marker is
absent or duplicated. -/
def occursIn (pat : List Char) : List Char → Bool
  | [] => false
  | c :: rest => pat.isPrefixOf (c :: rest) || occursIn pat rest

/-- `generate_lib_rs` (src/main.rs:213-226), parameterized by the glue
template text.  The real program fixes the template to
`include_str!("../template/src/lib.rs")`, a repository file outside
src/; the splicing itself is exactly two textual replace-alls. -/
def generate_lib_rs (template : String) (method_names : List String) :
    String :=
  string_replace
    (string_replace template MARKER_BYTECODE bytecode_static)
    MARKER_EXPORTS (exports_text method_names)

/-- Reported size saving of the optimizer pass:
`raw_size.saturating_sub(opt_size)` (src/main.rs:401).  Both sizes are
u64 file lengths; `Nat` subtraction is exactly saturating subtraction. -/
def saved_bytes (raw_size opt_size : Nat) : Nat :=
  raw_size - opt_size

/-- Reported percentage saving (src/main.rs:402-406): the division by
`raw_size` is guarded by `raw_size > 0`, else 0 is reported.  The Rust
code computes in f64; the guarded quotient is modeled exactly in ℚ. -/
def saved_pct (raw_size opt_size : Nat) : ℚ :=
  if 0 < raw_size then
    ((saved_bytes raw_size opt_size : ℚ) / (raw_size : ℚ)) * 100
  else 0

/-- The four post-MVP feature flags passed to wasm-opt for default
(non-compat) builds (src/main.rs:386-391). -/
def modern_feature_flags : List String :=
  ["--enable-bulk-memory", "--enable-nontrapping-float-to-int",
   "--enable-reference-types", "--enable-sign-ext"]

/-- The wasm-opt argument list (src/main.rs:381-392): `-Oz` in-place on
the artifact, plus the four feature flags exactly when not compat. -/
def wasm_opt_args (wasm_path : String) (compat : Bool) : List String :=
  ["-Oz", wasm_path, "-o", wasm_path] ++
    (if !compat then modern_feature_flags else [])

/-- The cargo invocation arguments (src/main.rs:270-273): `build
--release`, plus `-Zbuild-std=std,panic_abort` for compat builds. -/
def cargo_args (compat : Bool) : List String :=
  ["build", "--release"] ++
    (if compat then ["-Zbuild-std=std,panic_abort"] else [])

/-- The wasm-tools invocation arguments (src/main.rs:427-431). -/
def verify_args (wasm_path : String) : List String :=
  ["validate", "--features=-bulk-memory", wasm_path]

/-- Observable pipeline events, in the order `build_contract` performs
them.  Process-invocation events record the exact argument list. -/
inductive Event where
  | foundMethods (names : List String)
  | compiled (blobLen : Nat)
  | wroteProject (compat : Bool) (names : List String)
  | cargoBuild (compat : Bool) (args : List String)
  | copiedToOutput
  | optimizeStage
  | invokedWasmOpt (args : List String)
  | optReport (saved : Nat)
  | warnedToolMissing (tool : String)
  | verifyStage
  | invokedVerify (args : List String)
deriving DecidableEq

/-- Outcomes of the external collaborators and of the filesystem for one
pipeline run.  Each field abstracts one effectful step of
`build_contract` (src/main.rs:319-378). -/
structure Env where
  /-- `fs::read_to_string(input)` (src/main.rs:324-325). -/
  sourceRead : Except String String
  /-- `parse_module(source)`: the external ruff parser applied to the
  source text (src/main.rs:157). -/
  parseResult : String → Except String Module
  /-- `MontyRun::new(program, "contract.py", ["_method"], catalog)`
  applied to the full program text (src/main.rs:197-202). -/
  montyNew : String → Except String Unit
  /-- `runner.dump()` (src/main.rs:204). -/
  montyDump : Except String (List Nat)
  /-- The `cargo build` child process (src/main.rs:275-280). -/
  cargoSpawn : SpawnResult
  /-- Whether the fixed-path WASM artifact exists after a successful
  cargo build (src/main.rs:288-293). -/
  artifactExists : Bool
  /-- The caller-specified output path, as a display string
  (src/main.rs:355-359). -/
  outputPath : String
  /-- Size of the output file right after the copy (src/main.rs:362). -/
  rawSize : Nat
  /-- The wasm-opt child process (src/main.rs:396). -/
  wasmOptSpawn : SpawnResult
  /-- Size of the output file after a successful wasm-opt run
  (src/main.rs:400). -/
  optimizedSize : Nat
  /-- The wasm-tools child process (src/main.rs:426-432). -/
  wasmToolsSpawn : SpawnResult

/-- `precompile_contract` (src/main.rs:190-205): concatenate source and
dispatcher, hand the program to the Monty compiler, and wrap either
failure phase into `CompilationFailed`. -/
def precompile_contract (env : Env) (source : String)
    (method_names : List String) : Except PipelineError (List Nat) :=
  let program := source ++ "\n\n" ++ generate_dispatcher method_names
  match env.montyNew program with
  | Except.error e =>
      Except.error (PipelineError.compilationFailed CompileStage.compile e)
  | Except.ok _ =>
      match env.montyDump with
      | Except.error e =>
          Except.error
            (PipelineError.compilationFailed CompileStage.serialize e)
      | Except.ok blob => Except.ok blob

/-- `build_wasm` (src/main.rs:269-296): a spawn failure of cargo is
fatal (`context("failed to run cargo build")`), a non-zero exit is
`BuildFailed` with both captured streams, and a missing artifact despite
success is fatal. -/
def build_wasm (spawn : SpawnResult) (artifactExists : Bool) :
    Except PipelineError Unit :=
  match spawn with
  | SpawnResult.notFound =>
      Except.error (PipelineError.ioError "failed to run cargo build")
  | SpawnResult.exited ok out err =>
      if ok then
        if artifactExists then Except.ok ()
        else Except.error PipelineError.artifactMissing
      else Except.error (PipelineError.buildFailed out err)

/-- `run_wasm_opt` (src/main.rs:380-423): a successful run reports the
saturating size saving; a non-zero exit is fatal `OptimizationFailed`
carrying the captured stderr; a spawn failure (wasm-opt not installed)
is downgraded to a warning and the stage succeeds. -/
def run_wasm_opt (spawn : SpawnResult) (wasm_path : String)
    (compat : Bool) (raw_size opt_size : Nat) :
    List Event × Except PipelineError Unit :=
  let args := wasm_opt_args wasm_path compat
  match spawn with
  | SpawnResult.exited true _ _ =>
      ([Event.optimizeStage, Event.invokedWasmOpt args,
        Event.optReport (saved_bytes raw_size opt_size)],
       Except.ok ())
  | SpawnResult.exited false _ err =>
      ([Event.optimizeStage, Event.invokedWasmOpt args],
       Except.error (PipelineError.optimizationFailed err))
  | SpawnResult.notFound =>
      ([Event.optimizeStage, Event.warnedToolMissing "wasm-opt"],
       Except.ok ())

/-- `verify_no_bulk_memory` (src/main.rs:425-455): a passing validation
succeeds, a reported violation is fatal `VerificationFailed`, and a
spawn failure (wasm-tools not installed) is downgraded to a warning. -/
def verify_no_bulk_memory (spawn : SpawnResult) (wasm_path : String) :
    List Event × Except PipelineError Unit :=
  match spawn with
  | SpawnResult.exited true _ _ =>
      ([Event.verifyStage, Event.invokedVerify (verify_args wasm_path)],
       Except.ok ())
  | SpawnResult.exited false _ err =>
      ([Event.verifyStage, Event.invokedVerify (verify_args wasm_path)],
       Except.error (PipelineError.verificationFailed err))
  | SpawnResult.notFound =>
      ([Event.verifyStage, Event.warnedToolMissing "wasm-tools"],
       Except.ok ())

/-- `build_contract` (src/main.rs:319-378), returning the event trace
together with the pipeline result.  Control flow mirrors the source:
read, discover (bailing on parse failure), bail on zero exports,
precompile, write the generated project, cargo build, copy the artifact
to the output path, optionally wasm-opt the output in place, and for
compat builds verify the output last. -/
def build_contract (env : Env) (compat no_wasm_opt : Bool) :
    List Event × Except PipelineError Unit :=
  match env.sourceRead with
  | Except.error e => ([], Except.error (PipelineError.ioError e))
  | Except.ok source =>
    match find_exported_functions (env.parseResult source) with
    | Except.error e => ([], Except.error e)
    | Except.ok method_names =>
      if method_names.isEmpty then
        ([], Except.error PipelineError.noExports)
      else
        match precompile_contract env source method_names with
        | Except.error e =>
            ([Event.foundMethods method_names], Except.error e)
        | Except.ok bytecode =>
          match build_wasm env.cargoSpawn env.artifactExists with
          | Except.error e =>
              ([Event.foundMethods method_names,
                Event.compiled bytecode.length,
                Event.wroteProject compat method_names,
                Event.cargoBuild compat (cargo_args compat)],
               Except.error e)
          | Except.ok _ =>
            if no_wasm_opt then
              if compat then
                ([Event.foundMethods method_names,
                  Event.compiled bytecode.length,
                  Event.wroteProject compat method_names,
                  Event.cargoBuild compat (cargo_args compat),
                  Event.copiedToOutput] ++
                   (verify_no_bulk_memory env.wasmToolsSpawn
                     env.outputPath).1,
                 (verify_no_bulk_memory env.wasmToolsSpawn
                   env.outputPath).2)
              else
                ([Event.foundMethods method_names,
                  Event.compiled bytecode.length,
                  Event.wroteProject compat method_names,
                  Event.cargoBuild compat (cargo_args compat),
                  Event.copiedToOutput], Except.ok ())
            else
              match (run_wasm_opt env.wasmOptSpawn env.outputPath compat
                  env.rawSize env.optimizedSize).2 with
              | Except.error e =>
                  ([Event.foundMethods method_names,
                    Event.compiled bytecode.length,
                    Event.wroteProject compat method_names,
                    Event.cargoBuild compat (cargo_args compat),
                    Event.copiedToOutput] ++
                     (run_wasm_opt env.wasmOptSpawn env.outputPath compat
                       env.rawSize env.optimizedSize).1,
                   Except.error e)
              | Except.ok _ =>
                if compat then
                  ([Event.foundMethods method_names,
                    Event.compiled bytecode.length,
                    Event.wroteProject compat method_names,
                    Event.cargoBuild compat (cargo_args compat),
                    Event.copiedToOutput] ++
                     (run_wasm_opt env.wasmOptSpawn env.outputPath compat
                       env.rawSize env.optimizedSize).1 ++
                     (verify_no_bulk_memory env.wasmToolsSpawn
                       env.outputPath).1,
                   (verify_no_bulk_memory env.wasmToolsSpawn
                     env.outputPath).2)
                else
                  ([Event.foundMethods method_names,
                    Event.compiled bytecode.length,
                    Event.wroteProject compat method_names,
                    Event.cargoBuild compat (cargo_args compat),
                    Event.copiedToOutput] ++
                     (run_wasm_opt env.wasmOptSpawn env.outputPath compat
                       env.rawSize env.optimizedSize).1,
                   Except.ok ())

/-- Events that mark the four post-compilation stages whose relative
order the spec pins down. -/
def isMainStage : Event → Bool
  | Event.cargoBuild _ _ => true
  | Event.copiedToOutput => true
  | Event.optimizeStage => true
  | Event.verifyStage => true
  | _ => false

/-- The characters of the fixed text that precedes the symbol name in
every export block (`#[no_mangle]` plus the extern fn header). -/
def HDR_CHARS : List Char := "#[no_mangle]\npub extern \"C\" fn ".data

/-- The characters of the fixed text between the symbol name and the
method-name literal of an export block (the parameter list, the opening
brace, and the `run_method(CONTRACT_BYTECODE, "` call prefix). -/
def MID_CHARS : List Char :=
  "() \x7b\n    run_method(CONTRACT_BYTECODE, \"".data

/-- The characters of the fixed text that closes an export block (the
closing quote and parenthesis of the call and the closing brace). -/
def TAIL_CHARS : List Char := "\");\n\x7d\n\n".data

/-- Strip an expected literal prefix, or fail. -/
def chomp (pre l : List Char) : Option (List Char) :=
  if pre.isPrefixOf l then some (l.drop pre.length) else none

/-- Split a char list at the first occurrence of a stop character. -/
def grabUntil (stop : Char) (l : List Char) : List Char × List Char :=
  (l.takeWhile (fun c => c != stop), l.dropWhile (fun c => c != stop))

/-- Read the `#[no_mangle]` export blocks back out of generated glue
text: repeatedly expect the fixed header, read the declared symbol name
up to its parameter list, expect the fixed dispatch-call text, read the
method-name literal up to its closing quote, and expect the fixed block
tail.  Returns the list of (declared symbol, dispatched method-name
literal) pairs, or `none` if the text is not a sequence of well-formed
export blocks.  Fuel-indexed; one unit of fuel is spent per block. -/
def extract_exports : Nat → List Char → Option (List (String × String))
  | _, [] => some []
  | 0, _ => none
  | fuel + 1, c :: l =>
      match chomp HDR_CHARS (c :: l) with
      | none => none
      | some r1 =>
        let s := grabUntil '(' r1
        match chomp MID_CHARS s.2 with
        | none => none
        | some r2 =>
          let t := grabUntil '"' r2
          match chomp TAIL_CHARS t.2 with
          | none => none
          | some r3 =>
            match extract_exports fuel r3 with
            | none => none
            | some xs => some ((String.mk s.1, String.mk t.1) :: xs)

/-- A one-function demo module: `def hello(): ...` parsed. -/
def demoModule : Module :=
  ⟨[Stmt.functionDef "hello" [Stmt.other]]⟩

/-- A run environment in which every collaborator succeeds. -/
def envAllOk : Env where
  sourceRead := Except.ok "def hello(): ..."
  parseResult := fun _ => Except.ok demoModule
  montyNew := fun _ => Except.ok ()
  montyDump := Except.ok [1, 2, 3]
  cargoSpawn := SpawnResult.exited true "" ""
  artifactExists := true
  outputPath := "contract.wasm"
  rawSize := 1000
  wasmOptSpawn := SpawnResult.exited true "" ""
  optimizedSize := 600
  wasmToolsSpawn := SpawnResult.exited true "" ""

/-- As `envAllOk`, but the wasm-opt process exits non-zero. -/
def envOptFails : Env :=
  { envAllOk with wasmOptSpawn := SpawnResult.exited false "" "opt boom" }

/-- As `envAllOk`, but neither wasm-opt nor wasm-tools is installed. -/
def envToolsMissing : Env :=
  { envAllOk with
      wasmOptSpawn := SpawnResult.notFound
      wasmToolsSpawn := SpawnResult.notFound }

/-- As `envAllOk`, but the source defines only a private function, so
discovery yields no exported names. -/
def envNoExports : Env :=
  { envAllOk with
      parseResult := fun _ =>
        Except.ok ⟨[Stmt.functionDef "_hidden" [Stmt.other]]⟩ }

theorem string_data_append (a b : String) :
    (a ++ b).data = a.data ++ b.data := by
  cases a; cases b; rfl

theorem string_append_assoc (a b c : String) :
    a ++ b ++ c = a ++ (b ++ c) := by
  cases a; cases b; cases c
  exact congrArg String.mk (List.append_assoc _ _ _)

theorem string_nil_append (a : String) : "" ++ a = a := by
  cases a; rfl

theorem string_append_nil (a : String) : a ++ "" = a := by
  cases a
  exact congrArg String.mk (List.append_nil _)

theorem starts_with_underscore_iff (name : String) :
    starts_with_underscore name = true ↔ name.data.head? = some '_' := by
  unfold starts_with_underscore
  cases name.data with
  | nil => simp
  | cons c cs => simp [beq_iff_eq]

theorem exported_name_of_functionDef (name : String) (body : List Stmt) :
    exported_name_of (Stmt.functionDef name body) =
      if starts_with_underscore name then none else some name := by
  by_cases h : starts_with_underscore name
  · rw [if_pos h]
    have hd := (starts_with_underscore_iff name).mp h
    cases hq : name.data with
    | nil => rw [hq] at hd; exact Option.noConfusion hd
    | cons c cs =>
        rw [hq] at hd
        have hc : c = '_' := by simpa using hd
        subst hc
        show (match name.data with
              | '_' :: _ => none
              | _ => some name) = none
        rw [hq]
        rfl
  · rw [if_neg h]
    show (match name.data with
          | '_' :: _ => none
          | _ => some name) = some name
    split
    · next h2 =>
        exact absurd ((starts_with_underscore_iff name).mpr (by rw [h2]; rfl)) h
    · rfl

theorem collectExported_filterMap (l : List Stmt) :
    collectExported l = l.filterMap exported_name_of := by
  induction l with
  | nil => rfl
  | cons s rest ih =>
      cases s with
      | functionDef name body =>
          rw [List.filterMap_cons, exported_name_of_functionDef]
          by_cases h : starts_with_underscore name
          · simp [collectExported, h, ih]
          · simp [collectExported, h, ih]
      | classDef n b => simp [collectExported, exported_name_of, ih]
      | ifStmt b o => simp [collectExported, exported_name_of, ih]
      | other => simp [collectExported, exported_name_of, ih]

theorem collectExported_stripNested (l : List Stmt) :
    collectExported (l.map stripNested) = collectExported l := by
  induction l with
  | nil => rfl
  | cons s rest ih =>
      cases s with
      | functionDef name body =>
          by_cases h : starts_with_underscore name <;>
            simp [stripNested, collectExported, h, ih]
      | classDef n b => simp [stripNested, collectExported, ih]
      | ifStmt b o => simp [stripNested, collectExported, ih]
      | other => simp [stripNested, collectExported, ih]

/-- C1: for every syntactically valid source file, entry-point discovery
returns exactly the names of the top-level function-definition
statements whose name does not start with `_`, in source order, and the
result is unchanged when every nested suite (function bodies, class
bodies, conditional branches) is erased — discovery never recurses into
them; for every syntactically invalid source file it fails with a
`ParseError` carrying the parser diagnostic. -/
theorem find_exported_functions_spec (p : Except String Module) :
    (∀ e, p = Except.error e →
      find_exported_functions p =
        Except.error (PipelineError.parseError e)) ∧
    (∀ m, p = Except.ok m →
      find_exported_functions p =
        Except.ok (m.body.filterMap exported_name_of) ∧
      find_exported_functions (Except.ok ⟨m.body.map stripNested⟩) =
        find_exported_functions p) := by
  constructor
  · rintro e rfl; rfl
  · rintro m rfl
    refine ⟨?_, ?_⟩
    · simp [find_exported_functions, collectExported_filterMap]
    · simp [find_exported_functions, collectExported_stripNested]

/-- Witness for C1: a module defining `greet` and a private `_helper`
yields exactly `["greet"]`. -/
theorem find_exported_functions_spec_witness :
    find_exported_functions
        (Except.ok ⟨[Stmt.functionDef "greet" [Stmt.other],
                     Stmt.functionDef "_helper" [Stmt.other]]⟩) =
      Except.ok ["greet"] := by
  have h := (find_exported_functions_spec
      (Except.ok ⟨[Stmt.functionDef "greet" [Stmt.other],
                   Stmt.functionDef "_helper" [Stmt.other]]⟩)).2 _ rfl
  exact h.1.trans (by rfl)

/-- C9 counterexample: a syntactically valid module defining the same
top-level function name twice is accepted by discovery, which returns
the name twice — the returned sequence is not duplicate-free. -/
theorem duplicate_exported_names :
    find_exported_functions
        (Except.ok ⟨[Stmt.functionDef "f" [Stmt.other],
                     Stmt.functionDef "f" [Stmt.other]]⟩) =
      Except.ok ["f", "f"] ∧
    ¬ (["f", "f"] : List String).Nodup :=
  ⟨rfl, by decide⟩

theorem collectExported_not_private (l : List Stmt) :
    ∀ n ∈ collectExported l, starts_with_underscore n = false := by
  induction l with
  | nil => simp [collectExported]
  | cons s rest ih =>
      cases s with
      | functionDef name body =>
          by_cases h : starts_with_underscore name
          · simpa [collectExported, h] using ih
          · intro n hn
            rw [collectExported] at hn
            simp only [h, if_false, Bool.false_eq_true, List.mem_cons] at hn
            rcases hn with rfl | hn
            · simpa using h
            · exact ih n hn
      | classDef nm b => simpa [collectExported] using ih
      | ifStmt b o => simpa [collectExported] using ih
      | other => simpa [collectExported] using ih

/-- C9 (amended): every name returned by entry-point discovery avoids
the privacy marker `_`, but the sequence need not be duplicate-free —
discovery performs no deduplication, so a source defining the same
top-level name twice yields that name twice. -/
theorem exported_names_not_private (m : Module) (names : List String)
    (h : find_exported_functions (Except.ok m) = Except.ok names) :
    ∀ n ∈ names, starts_with_underscore n = false := by
  have hn : names = collectExported m.body := by
    have := h.symm
    simpa [find_exported_functions] using this
  subst hn
  exact collectExported_not_private m.body

/-- Witness for C9 (amended) at the demo module. -/
theorem exported_names_not_private_witness :
    starts_with_underscore "hello" = false :=
  exported_names_not_private demoModule ["hello"] rfl "hello"
    (by simp)

theorem dispatcher_fold (rest : List String) (acc : String) (m : Nat) :
    (rest.foldl
      (fun (a : String × Nat) name =>
        (a.1 ++ (if a.2 == 0 then if_branch name else elif_branch name),
         a.2 + 1))
      (acc, m + 1)).1 = acc ++ concat_all (rest.map elif_branch) := by
  induction rest generalizing acc m with
  | nil => simp [concat_all, string_append_nil]
  | cons x xs ih =>
      simp only [List.foldl, List.map, concat_all]
      rw [show ((m + 1 : Nat) == 0) = false from rfl]
      simp only [Bool.false_eq_true, if_false]
      rw [ih (acc ++ elif_branch x) (m + 1), string_append_assoc]

/-- C2: for every non-empty list of method names, the dispatcher text is
exactly an initial `if` branch testing the first name and calling it
with zero arguments, followed by one `elif` branch per subsequent name
calling the matching function, and nothing else — in particular no
trailing unconditional `else` branch. -/
theorem generate_dispatcher_chain (a : String) (rest : List String) :
    generate_dispatcher (a :: rest) =
      if_branch a ++ concat_all (rest.map elif_branch) := by
  unfold generate_dispatcher
  simp only [List.foldl]
  rw [show ((0 : Nat) == 0) = true from rfl]
  simp only [if_true]
  rw [show (0 + 1 : Nat) = 0 + 1 from rfl]
  rw [dispatcher_fold rest ("" ++ if_branch a) 0, string_nil_append]

/-- C6: a source file whose top-level functions are all private (or
absent) makes the pipeline fail with `NoExportsError` immediately after
discovery: the trace is empty, so neither the bytecode compiler was
invoked nor any project file written. -/
theorem no_exports_short_circuit (env : Env) (c w : Bool) (src : String)
    (m : Module) (h1 : env.sourceRead = Except.ok src)
    (h2 : env.parseResult src = Except.ok m)
    (h3 : collectExported m.body = []) :
    build_contract env c w = ([], Except.error PipelineError.noExports) := by
  simp [build_contract, h1, h2, find_exported_functions, h3]

/-- Witness for C6 at a run whose source defines only `_hidden`. -/
theorem no_exports_short_circuit_witness :
    build_contract envNoExports true false =
      ([], Except.error PipelineError.noExports) :=
  no_exports_short_circuit envNoExports true false _ _ rfl rfl rfl

/-- C4 counterexample: `generate_lib_rs` is total string substitution
and raises no error on a defective template — a template without the
splice markers is passed through unchanged, and a template containing
the exports marker twice has it expanded at both occurrences.  No
`TemplateIntegrityError` (or any other failure) exists on this path. -/
theorem template_marker_defect_is_silent :
    generate_lib_rs "fn lib() \x7b\x7d" ["foo"] = "fn lib() \x7b\x7d" ∧
    generate_lib_rs "// @MONTY_EXPORTS\n// @MONTY_EXPORTS" ["foo"] =
      exports_text ["foo"] ++ "\n" ++ exports_text ["foo"] := by
  constructor
  · rfl
  · rfl

theorem string_mk_data_early (n : String) : String.mk n.data = n := by
  cases n; rfl

theorem isPrefixOf_append_self_early (l r : List Char) :
    l.isPrefixOf (l ++ r) = true := by
  induction l with
  | nil => simp [List.isPrefixOf]
  | cons a as ih => simp [List.isPrefixOf, ih]

theorem replace_go_cons_no_match (pat rep : List Char) (fuel : Nat)
    (x : Char) (l : List Char)
    (h : pat.isPrefixOf (x :: l) = false) :
    replace_go pat rep (fuel + 1) (x :: l) =
      x :: replace_go pat rep fuel l := by
  simp only [replace_go]
  rw [h]
  simp

theorem replace_go_cons_match (pat rep : List Char) (fuel : Nat)
    (x : Char) (l : List Char)
    (h : pat.isPrefixOf (x :: l) = true) :
    replace_go pat rep (fuel + 1) (x :: l) =
      rep ++ replace_go pat rep fuel (l.drop (pat.length - 1)) := by
  simp only [replace_go]
  rw [h]
  simp

theorem replace_go_no_occurrence (pat rep : List Char) (fuel : Nat)
    (l : List Char) (h : occursIn pat l = false) :
    replace_go pat rep fuel l = l := by
  induction fuel generalizing l with
  | zero => cases l <;> rfl
  | succ f ih =>
      cases l with
      | nil => rfl
      | cons c rest =>
          unfold occursIn at h
          obtain ⟨h1, h2⟩ := Bool.or_eq_false_iff.mp h
          rw [replace_go_cons_no_match pat rep f c rest h1, ih rest h2]

/-- An absent marker (no occurrence anywhere in the text) makes the
textual replace a silent no-op, for every input string. -/
theorem string_replace_no_occurrence (s pat rep : String)
    (h : occursIn pat.data s.data = false) :
    string_replace s pat rep = s := by
  unfold string_replace
  rw [replace_go_no_occurrence pat.data rep.data _ _ h,
    string_mk_data_early]

theorem replace_go_skip (pat rep : List Char) (hd : Char)
    (tl : List Char) (hpat : pat = hd :: tl) :
    ∀ (a : List Char), (∀ x ∈ a, x ≠ hd) →
      ∀ (fuel : Nat) (r : List Char),
        replace_go pat rep (a.length + fuel) (a ++ r) =
          a ++ replace_go pat rep fuel r := by
  intro a
  induction a with
  | nil => intro _ fuel r; simp
  | cons x a' ih =>
      intro ha fuel r
      have hx : x ≠ hd := ha x (List.mem_cons_self x a')
      have hpr : pat.isPrefixOf (x :: (a' ++ r)) = false := by
        rw [hpat]
        simp [List.isPrefixOf, beq_eq_false_iff_ne.mpr (Ne.symm hx)]
      rw [show (x :: a').length + fuel = (a'.length + fuel) + 1 from by
            simp only [List.length_cons]; omega,
          List.cons_append,
          replace_go_cons_no_match pat rep (a'.length + fuel) x (a' ++ r)
            hpr,
          ih (fun y hy => ha y (List.mem_cons_of_mem x hy)) fuel r]
      rfl

theorem replace_go_match (pat rep : List Char) (hd : Char)
    (tl : List Char) (hpat : pat = hd :: tl) (fuel : Nat)
    (r : List Char) :
    replace_go pat rep (fuel + 1) (pat ++ r) =
      rep ++ replace_go pat rep fuel r := by
  subst hpat
  rw [List.cons_append,
      replace_go_cons_match (hd :: tl) rep fuel hd (tl ++ r)
        (isPrefixOf_append_self_early (hd :: tl) r),
      show (hd :: tl).length - 1 = tl.length from by simp,
      List.drop_left]

/-- A pattern occurring exactly twice, in a decomposition whose earlier
segments avoid the pattern's leading character, is replaced at both
occurrences. -/
theorem replace_go_double (rep : List Char) (hd : Char) (tl : List Char)
    (a b c : List Char)
    (ha : ∀ x ∈ a, x ≠ hd) (hb : ∀ x ∈ b, x ≠ hd)
    (hc : occursIn (hd :: tl) c = false) :
    replace_go (hd :: tl) rep
        (a ++ ((hd :: tl) ++ (b ++ ((hd :: tl) ++ c)))).length
        (a ++ ((hd :: tl) ++ (b ++ ((hd :: tl) ++ c)))) =
      a ++ (rep ++ (b ++ (rep ++ c))) := by
  rw [show (a ++ ((hd :: tl) ++ (b ++ ((hd :: tl) ++ c)))).length =
        a.length +
          ((tl.length + 1) + (b.length + ((tl.length + 1) + c.length)))
      from by
        simp only [List.length_append, List.length_cons]
        try omega,
      replace_go_skip (hd :: tl) rep hd tl rfl a ha
        ((tl.length + 1) + (b.length + ((tl.length + 1) + c.length)))
        ((hd :: tl) ++ (b ++ ((hd :: tl) ++ c))),
      show (tl.length + 1) + (b.length + ((tl.length + 1) + c.length)) =
        (tl.length + (b.length + ((tl.length + 1) + c.length))) + 1
      from by omega,
      replace_go_match (hd :: tl) rep hd tl rfl
        (tl.length + (b.length + ((tl.length + 1) + c.length)))
        (b ++ ((hd :: tl) ++ c)),
      show tl.length + (b.length + ((tl.length + 1) + c.length)) =
        b.length + (tl.length + ((tl.length + 1) + c.length))
      from by omega,
      replace_go_skip (hd :: tl) rep hd tl rfl b hb
        (tl.length + ((tl.length + 1) + c.length)) ((hd :: tl) ++ c),
      show tl.length + ((tl.length + 1) + c.length) =
        (tl.length + (tl.length + c.length)) + 1
      from by omega,
      replace_go_match (hd :: tl) rep hd tl rfl
        (tl.length + (tl.length + c.length)) c,
      replace_go_no_occurrence (hd :: tl) rep
        (tl.length + (tl.length + c.length)) c hc]

/-- String-level version of `replace_go_double`: a duplicated pattern is
expanded at both occurrences by the textual replace. -/
theorem string_replace_double (pat rep : String) (hd : Char)
    (tl a b c : List Char) (hpat : pat.data = hd :: tl)
    (ha : ∀ x ∈ a, x ≠ hd) (hb : ∀ x ∈ b, x ≠ hd)
    (hc : occursIn pat.data c = false) :
    (string_replace
        (String.mk (a ++ (pat.data ++ (b ++ (pat.data ++ c))))) pat
        rep).data =
      a ++ (rep.data ++ (b ++ (rep.data ++ c))) := by
  unfold string_replace
  show replace_go pat.data rep.data
      (a ++ (pat.data ++ (b ++ (pat.data ++ c)))).length
      (a ++ (pat.data ++ (b ++ (pat.data ++ c)))) = _
  rw [hpat] at hc ⊢
  exact replace_go_double rep.data hd tl a b c ha hb hc

/-- C4 (amended): project generation is total textual replace-all and
raises no error on a defective template.  For every template and method
list: if neither splice marker occurs in the template, generation
returns the template unchanged (the markers are simply never spliced);
and for every template in which the exports marker — or symmetrically
the bytecode marker — appears twice, in any decomposition
a ++ marker ++ b ++ marker ++ c whose segments a and b avoid the
markers' leading character `/` and whose tail c holds no further
occurrence, generation expands that marker at both occurrences.  No
`TemplateIntegrityError` (or any other failure) exists on this path:
`generate_lib_rs` is a total function into strings. -/
theorem template_replace_silent :
    (∀ (tmpl : String) (names : List String),
      occursIn MARKER_BYTECODE.data tmpl.data = false →
      occursIn MARKER_EXPORTS.data tmpl.data = false →
      generate_lib_rs tmpl names = tmpl) ∧
    (∀ (names : List String) (a b c : List Char),
      (∀ x ∈ a, x ≠ '/') → (∀ x ∈ b, x ≠ '/') →
      occursIn MARKER_EXPORTS.data c = false →
      occursIn MARKER_BYTECODE.data
        (a ++ (MARKER_EXPORTS.data ++
          (b ++ (MARKER_EXPORTS.data ++ c)))) = false →
      (generate_lib_rs
          (String.mk (a ++ (MARKER_EXPORTS.data ++
            (b ++ (MARKER_EXPORTS.data ++ c))))) names).data =
        a ++ ((exports_text names).data ++
          (b ++ ((exports_text names).data ++ c)))) ∧
    (∀ (names : List String) (a b c : List Char),
      (∀ x ∈ a, x ≠ '/') → (∀ x ∈ b, x ≠ '/') →
      occursIn MARKER_BYTECODE.data c = false →
      occursIn MARKER_EXPORTS.data
        (a ++ (bytecode_static.data ++
          (b ++ (bytecode_static.data ++ c)))) = false →
      (generate_lib_rs
          (String.mk (a ++ (MARKER_BYTECODE.data ++
            (b ++ (MARKER_BYTECODE.data ++ c))))) names).data =
        a ++ (bytecode_static.data ++
          (b ++ (bytecode_static.data ++ c)))) := by
  refine ⟨?_, ?_, ?_⟩
  · intro tmpl names h1 h2
    unfold generate_lib_rs
    rw [string_replace_no_occurrence tmpl MARKER_BYTECODE bytecode_static
          h1,
        string_replace_no_occurrence tmpl MARKER_EXPORTS
          (exports_text names) h2]
  · intro names a b c ha hb hc hMB
    unfold generate_lib_rs
    rw [string_replace_no_occurrence _ MARKER_BYTECODE bytecode_static
          hMB]
    exact string_replace_double MARKER_EXPORTS (exports_text names) '/'
      MARKER_EXPORTS.data.tail a b c rfl ha hb hc
  · intro names a b c ha hb hc hME
    unfold generate_lib_rs
    have hdouble :=
      string_replace_double MARKER_BYTECODE bytecode_static '/'
        MARKER_BYTECODE.data.tail a b c rfl ha hb hc
    rw [string_replace_no_occurrence
          (string_replace
            (String.mk (a ++ (MARKER_BYTECODE.data ++
              (b ++ (MARKER_BYTECODE.data ++ c)))))
            MARKER_BYTECODE bytecode_static)
          MARKER_EXPORTS (exports_text names)
          (by rw [hdouble]; exact hME)]
    exact hdouble

/-- Witness for C4 (amended): a template consisting of `x`, the exports
marker, `y`, the exports marker again, and `z` has the marker expanded
at both occurrences, with no error. -/
theorem template_replace_silent_witness :
    (generate_lib_rs
        (String.mk ("x".data ++ (MARKER_EXPORTS.data ++
          ("y".data ++ (MARKER_EXPORTS.data ++ "z".data))))) ["foo"]).data =
      "x".data ++ ((exports_text ["foo"]).data ++
        ("y".data ++ ((exports_text ["foo"]).data ++ "z".data))) :=
  template_replace_silent.2.1 ["foo"] "x".data "y".data "z".data
    (by decide) (by decide) (by decide) (by decide)

/-- C10: the reported size saving is the saturating difference of the
pre- and post-optimization sizes (zero when the optimizer enlarged the
artifact), the percentage is computed with a division guarded by the
pre-optimization size being non-zero, and a successful optimizer run
reports exactly this saturating saving. -/
theorem opt_savings_saturating :
    (∀ raw opt : Nat, raw ≤ opt → saved_bytes raw opt = 0) ∧
    (∀ raw opt : Nat, opt ≤ raw → saved_bytes raw opt + opt = raw) ∧
    (∀ opt : Nat, saved_pct 0 opt = 0) ∧
    (∀ raw opt : Nat, 0 < raw →
      saved_pct raw opt =
        ((saved_bytes raw opt : ℚ) / (raw : ℚ)) * 100) ∧
    (∀ p c raw opt o e,
      (run_wasm_opt (SpawnResult.exited true o e) p c raw opt).1 =
        [Event.optimizeStage, Event.invokedWasmOpt (wasm_opt_args p c),
         Event.optReport (saved_bytes raw opt)]) := by
  refine ⟨fun raw opt h => Nat.sub_eq_zero_of_le h,
          fun raw opt h => Nat.sub_add_cancel h,
          fun opt => by simp [saved_pct],
          fun raw opt h => by simp [saved_pct, h],
          fun p c raw opt o e => rfl⟩

/-- Witness for C10: an optimizer run that enlarges the artifact from
100 to 120 bytes reports zero bytes saved. -/
theorem opt_savings_saturating_witness : saved_bytes 100 120 = 0 :=
  opt_savings_saturating.1 100 120 (by decide)

theorem run_wasm_opt_filter (s : SpawnResult) (p : String) (c : Bool)
    (raw opt : Nat) :
    (run_wasm_opt s p c raw opt).1.filter isMainStage =
      [Event.optimizeStage] := by
  cases s with
  | notFound => rfl
  | exited ok o e => cases ok <;> rfl

theorem verify_filter (s : SpawnResult) (p : String) :
    (verify_no_bulk_memory s p).1.filter isMainStage =
      [Event.verifyStage] := by
  cases s with
  | notFound => rfl
  | exited ok o e => cases ok <;> rfl

theorem copied_not_mem_run_wasm_opt (s : SpawnResult) (p : String)
    (c : Bool) (raw opt : Nat) :
    Event.copiedToOutput ∉ (run_wasm_opt s p c raw opt).1 := by
  cases s with
  | notFound => simp [run_wasm_opt]
  | exited ok o e => cases ok <;> simp [run_wasm_opt]

theorem copied_not_mem_verify (s : SpawnResult) (p : String) :
    Event.copiedToOutput ∉ (verify_no_bulk_memory s p).1 := by
  cases s with
  | notFound => simp [verify_no_bulk_memory]
  | exited ok o e => cases ok <;> simp [verify_no_bulk_memory]

theorem invoked_mem_run_wasm_opt (s : SpawnResult) (p : String)
    (c : Bool) (raw opt : Nat) (args : List String)
    (h : Event.invokedWasmOpt args ∈ (run_wasm_opt s p c raw opt).1) :
    args = wasm_opt_args p c := by
  cases s with
  | notFound => simp [run_wasm_opt] at h
  | exited ok o e => cases ok <;> simpa [run_wasm_opt] using h

theorem invoked_not_mem_verify (s : SpawnResult) (p : String)
    (args : List String) :
    Event.invokedWasmOpt args ∉ (verify_no_bulk_memory s p).1 := by
  cases s with
  | notFound => simp [verify_no_bulk_memory]
  | exited ok o e => cases ok <;> simp [verify_no_bulk_memory]

theorem verifyStage_not_mem_run_wasm_opt (s : SpawnResult) (p : String)
    (c : Bool) (raw opt : Nat) :
    Event.verifyStage ∉ (run_wasm_opt s p c raw opt).1 := by
  cases s with
  | notFound => simp [run_wasm_opt]
  | exited ok o e => cases ok <;> simp [run_wasm_opt]

theorem verifyStage_mem_verify (s : SpawnResult) (p : String) :
    Event.verifyStage ∈ (verify_no_bulk_memory s p).1 := by
  cases s with
  | notFound => simp [verify_no_bulk_memory]
  | exited ok o e => cases ok <;> simp [verify_no_bulk_memory]

/-- C3 counterexample: a compat run in which every stage up to wasm-opt
succeeds but wasm-opt exits non-zero.  The pipeline fails with
`OptimizationFailed`, yet the artifact has already been copied to the
caller-specified output path, and in the trace the copy strictly
precedes the optimization stage — the copy is not performed after (nor
conditioned on) optimization success, contrary to the claimed order
Build → Optimize → Copy-To-Output. -/
theorem copy_precedes_optimize :
    (build_contract envOptFails true false).2 =
      Except.error (PipelineError.optimizationFailed "opt boom") ∧
    Event.copiedToOutput ∈ (build_contract envOptFails true false).1 ∧
    (build_contract envOptFails true false).1.indexOf
        Event.copiedToOutput <
      (build_contract envOptFails true false).1.indexOf
        Event.optimizeStage :=
  ⟨rfl, by decide, by decide⟩

/-- C3 (amended): the pipeline's stage order is Build, then
Copy-To-Output, then Optimize (if enabled, in place on the output path),
then Verify (if LegacyCompatible): in every run the main stages occur as
a subsequence of [Build, Copy, Optimize, Verify], and the copy happens
only after the native build stage has succeeded (but not conditioned on
optimization, which follows it). -/
theorem pipeline_stage_order (env : Env) (c w : Bool) :
    ((build_contract env c w).1.filter isMainStage).Sublist
      [Event.cargoBuild c (cargo_args c), Event.copiedToOutput,
       Event.optimizeStage, Event.verifyStage] ∧
    (Event.copiedToOutput ∈ (build_contract env c w).1 →
      build_wasm env.cargoSpawn env.artifactExists = Except.ok ()) := by
  unfold build_contract
  repeat' split
  all_goals refine ⟨?_, fun hmem => ?_⟩
  all_goals try assumption
  all_goals
    first
      | (simp [copied_not_mem_run_wasm_opt, copied_not_mem_verify] at hmem)
      | simp [List.filter_append, run_wasm_opt_filter, verify_filter,
              isMainStage]

/-- Witness for C3 (amended): in the all-success compat run the copy
event is present, so the build stage indeed succeeded. -/
theorem pipeline_stage_order_witness :
    build_wasm envAllOk.cargoSpawn envAllOk.artifactExists =
      Except.ok () :=
  (pipeline_stage_order envAllOk true false).2 (by decide)

/-- C5: compat builds pass wasm-opt exactly the base arguments (never
the four modern-feature flags) while default builds always append
exactly those four flags; every wasm-opt invocation in a pipeline run
uses precisely the profile's argument list; every successful compat run
reaches the verification stage, and no default run ever reaches it. -/
theorem profile_exclusivity :
    (∀ p, wasm_opt_args p true = ["-Oz", p, "-o", p]) ∧
    (∀ p, wasm_opt_args p false =
      ["-Oz", p, "-o", p] ++ modern_feature_flags) ∧
    (∀ env (c w : Bool) args,
      Event.invokedWasmOpt args ∈ (build_contract env c w).1 →
      args = wasm_opt_args env.outputPath c) ∧
    (∀ env (w : Bool),
      (build_contract env true w).2 = Except.ok () →
      Event.verifyStage ∈ (build_contract env true w).1) ∧
    (∀ env (w : Bool),
      Event.verifyStage ∉ (build_contract env false w).1) := by
  refine ⟨fun p => rfl, fun p => rfl, ?_, ?_, ?_⟩
  · intro env c w args h
    unfold build_contract at h
    repeat' split at h
    all_goals try simp [invoked_not_mem_verify] at h
    all_goals exact invoked_mem_run_wasm_opt _ _ _ _ _ _ h
  · intro env w hres
    unfold build_contract at hres ⊢
    repeat' split
    all_goals simp_all [verifyStage_mem_verify]
  · intro env w
    unfold build_contract
    repeat' split
    all_goals simp_all [verifyStage_not_mem_run_wasm_opt]

/-- Witness for C5: the all-success compat run ends successfully and its
trace contains the verification stage. -/
theorem profile_exclusivity_witness :
    Event.verifyStage ∈ (build_contract envAllOk true false).1 :=
  profile_exclusivity.2.2.2.1 envAllOk false rfl

/-- C7: an absent wasm-opt binary is downgraded to a warning and the
optimization stage succeeds; an absent wasm-tools binary likewise lets
the verification stage succeed; a wasm-opt process that runs but exits
non-zero fails the stage fatally with `OptimizationFailed` carrying the
captured stderr; and a pipeline whose earlier stages succeed completes
with `Except.ok` when both tools are missing, while a found-but-failing
wasm-opt makes the same pipeline fail with `OptimizationFailed`. -/
theorem tool_missing_vs_opt_failure :
    (∀ p c raw opt,
      (run_wasm_opt SpawnResult.notFound p c raw opt).2 = Except.ok () ∧
      Event.warnedToolMissing "wasm-opt" ∈
        (run_wasm_opt SpawnResult.notFound p c raw opt).1) ∧
    (∀ p c raw opt o e,
      (run_wasm_opt (SpawnResult.exited false o e) p c raw opt).2 =
        Except.error (PipelineError.optimizationFailed e)) ∧
    (∀ p,
      (verify_no_bulk_memory SpawnResult.notFound p).2 = Except.ok () ∧
      Event.warnedToolMissing "wasm-tools" ∈
        (verify_no_bulk_memory SpawnResult.notFound p).1) ∧
    (∀ env (c w : Bool) src m,
      env.sourceRead = Except.ok src →
      env.parseResult src = Except.ok m →
      collectExported m.body ≠ [] →
      (∀ prog, env.montyNew prog = Except.ok ()) →
      (∃ blob, env.montyDump = Except.ok blob) →
      (∃ o e, env.cargoSpawn = SpawnResult.exited true o e) →
      env.artifactExists = true →
      env.wasmOptSpawn = SpawnResult.notFound →
      env.wasmToolsSpawn = SpawnResult.notFound →
      (build_contract env c w).2 = Except.ok ()) ∧
    (∀ env (c : Bool) src m o e,
      env.sourceRead = Except.ok src →
      env.parseResult src = Except.ok m →
      collectExported m.body ≠ [] →
      (∀ prog, env.montyNew prog = Except.ok ()) →
      (∃ blob, env.montyDump = Except.ok blob) →
      (∃ o2 e2, env.cargoSpawn = SpawnResult.exited true o2 e2) →
      env.artifactExists = true →
      env.wasmOptSpawn = SpawnResult.exited false o e →
      (build_contract env c false).2 =
        Except.error (PipelineError.optimizationFailed e)) := by
  refine ⟨fun p c raw opt => ⟨rfl, by simp [run_wasm_opt]⟩,
          fun p c raw opt o e => rfl,
          fun p => ⟨rfl, by simp [verify_no_bulk_memory]⟩, ?_, ?_⟩
  · rintro env c w src m h1 h2 h3 h4 ⟨blob, h5⟩ ⟨o, e, h6⟩ h7 h8 h9
    rcases hx : collectExported m.body with _ | ⟨n, rest⟩
    · exact absurd hx h3
    · cases c <;> cases w <;>
        simp [build_contract, precompile_contract, find_exported_functions,
          h1, h2, h4, h5, h6, h7, h8, h9, hx, build_wasm, run_wasm_opt,
          verify_no_bulk_memory]
  · rintro env c src m o e h1 h2 h3 h4 ⟨blob, h5⟩ ⟨o2, e2, h6⟩ h7 h8
    rcases hx : collectExported m.body with _ | ⟨n, rest⟩
    · exact absurd hx h3
    · cases c <;>
        simp [build_contract, precompile_contract, find_exported_functions,
          h1, h2, h4, h5, h6, h7, h8, hx, build_wasm, run_wasm_opt]

/-- Witness for C7: with every earlier stage succeeding and both
wasm-opt and wasm-tools absent, the compat pipeline still completes
successfully. -/
theorem tool_missing_vs_opt_failure_witness :
    (build_contract envToolsMissing true false).2 = Except.ok () :=
  tool_missing_vs_opt_failure.2.2.2.1 envToolsMissing true false
    "def hello(): ..." demoModule rfl rfl (by decide)
    (fun prog => rfl) ⟨[1, 2, 3], rfl⟩ ⟨"", "", rfl⟩ rfl rfl rfl

theorem string_mk_data (n : String) : String.mk n.data = n := by
  cases n; rfl

theorem isPrefixOf_append_self (l r : List Char) :
    l.isPrefixOf (l ++ r) = true := by
  induction l with
  | nil => simp [List.isPrefixOf]
  | cons a as ih => simp [List.isPrefixOf, ih]

theorem chomp_append (pre x : List Char) :
    chomp pre (pre ++ x) = some x := by
  simp [chomp, isPrefixOf_append_self, List.drop_left]

theorem takeWhile_append_all (p : Char → Bool) (a b : List Char)
    (h : ∀ c ∈ a, p c = true) :
    (a ++ b).takeWhile p = a ++ b.takeWhile p := by
  induction a with
  | nil => simp
  | cons x xs ih =>
      have hx : p x = true := h x (List.mem_cons_self x xs)
      simp only [List.cons_append, List.takeWhile_cons, hx, if_true]
      rw [ih (fun c hc => h c (List.mem_cons_of_mem x hc))]

theorem dropWhile_append_all (p : Char → Bool) (a b : List Char)
    (h : ∀ c ∈ a, p c = true) :
    (a ++ b).dropWhile p = b.dropWhile p := by
  induction a with
  | nil => simp
  | cons x xs ih =>
      have hx : p x = true := h x (List.mem_cons_self x xs)
      simp only [List.cons_append, List.dropWhile_cons, hx, if_true]
      exact ih (fun c hc => h c (List.mem_cons_of_mem x hc))

theorem grabUntil_append (stop : Char) (a b : List Char)
    (h : ∀ c ∈ a, (c != stop) = true) (hb : b.head? = some stop) :
    grabUntil stop (a ++ b) = (a, b) := by
  cases b with
  | nil => exact absurd hb (by simp)
  | cons x xs =>
      have hx : x = stop := by simpa using hb
      subst hx
      unfold grabUntil
      rw [takeWhile_append_all _ _ _ h, dropWhile_append_all _ _ _ h]
      simp [List.takeWhile_cons, List.dropWhile_cons]

theorem foldl_exports_shift (l : List String) (a b : String) :
    l.foldl (fun acc name => acc ++ export_block name) (a ++ b) =
      a ++ l.foldl (fun acc name => acc ++ export_block name) b := by
  induction l generalizing b with
  | nil => rfl
  | cons x xs ih =>
      simp only [List.foldl]
      rw [string_append_assoc, ih]

theorem exports_text_cons (n : String) (rest : List String) :
    exports_text (n :: rest) = export_block n ++ exports_text rest := by
  unfold exports_text
  simp only [List.foldl]
  rw [string_nil_append]
  conv_lhs =>
    rw [show export_block n = export_block n ++ "" from
      (string_append_nil _).symm]
  rw [foldl_exports_shift]

theorem export_block_data (n : String) :
    (export_block n).data =
      HDR_CHARS ++ (n.data ++ (MID_CHARS ++ (n.data ++ TAIL_CHARS))) := by
  simp [export_block, HDR_CHARS, MID_CHARS, TAIL_CHARS,
    string_data_append, List.append_assoc]

theorem extract_exports_pos (fuel : Nat) (l : List Char) (hne : l ≠ []) :
    extract_exports (fuel + 1) l =
      match chomp HDR_CHARS l with
      | none => none
      | some r1 =>
        match chomp MID_CHARS (grabUntil '(' r1).2 with
        | none => none
        | some r2 =>
          match chomp TAIL_CHARS (grabUntil '"' r2).2 with
          | none => none
          | some r3 =>
            match extract_exports fuel r3 with
            | none => none
            | some xs =>
              some ((String.mk (grabUntil '(' r1).1,
                     String.mk (grabUntil '"' r2).1) :: xs) := by
  cases l with
  | nil => exact absurd rfl hne
  | cons c cs => rfl

theorem extract_exports_step (n : String) (rest : List Char) (fuel : Nat)
    (hp : ('(' : Char) ∉ n.data) (hq : ('"' : Char) ∉ n.data) :
    extract_exports (fuel + 1) ((export_block n).data ++ rest) =
      match extract_exports fuel rest with
      | none => none
      | some xs => some ((n, n) :: xs) := by
  have hp2 : ∀ c ∈ n.data, (c != '(') = true :=
    fun c hc => bne_iff_ne.mpr (fun hcc => hp (hcc ▸ hc))
  have hq2 : ∀ c ∈ n.data, (c != '"') = true :=
    fun c hc => bne_iff_ne.mpr (fun hcc => hq (hcc ▸ hc))
  rw [export_block_data]
  simp only [List.append_assoc]
  rw [extract_exports_pos fuel _ (by simp [HDR_CHARS])]
  rw [chomp_append]
  dsimp only
  rw [grabUntil_append '(' n.data
      (MID_CHARS ++ (n.data ++ (TAIL_CHARS ++ rest))) hp2 (by rfl)]
  dsimp only
  rw [chomp_append]
  dsimp only
  rw [grabUntil_append '"' n.data (TAIL_CHARS ++ rest) hq2 (by rfl)]
  dsimp only
  rw [chomp_append]

theorem extract_exports_text (names : List String) :
    (∀ n ∈ names, ('(' : Char) ∉ n.data ∧ ('"' : Char) ∉ n.data) →
    extract_exports names.length (exports_text names).data =
      some (names.map fun n => (n, n)) := by
  induction names with
  | nil => intro _; rfl
  | cons n rest ih =>
      intro h
      rw [exports_text_cons, string_data_append,
        show (n :: rest).length = rest.length + 1 from rfl,
        extract_exports_step n ((exports_text rest).data) rest.length
          (h n (List.mem_cons_self n rest)).1
          (h n (List.mem_cons_self n rest)).2,
        ih (fun x hx => h x (List.mem_cons_of_mem n hx))]
      rfl

/-- C8: the generated glue source declares, via its `#[no_mangle]`
blocks, exactly one externally-callable symbol per discovered method
name, with no renaming, duplication, or omission, and each block's body
is the single call `run_method(CONTRACT_BYTECODE, "<name>")`: reading
the export blocks back out of the generated text recovers exactly the
method-name list, paired with identical dispatch-call name literals; and
`generate_lib_rs` splices exactly this exports text at the exports
marker. -/
theorem glue_exports_round_trip (names : List String) (tmpl : String)
    (h : ∀ n ∈ names, ('(' : Char) ∉ n.data ∧ ('"' : Char) ∉ n.data) :
    extract_exports names.length (exports_text names).data =
      some (names.map fun n => (n, n)) ∧
    generate_lib_rs tmpl names =
      string_replace
        (string_replace tmpl MARKER_BYTECODE bytecode_static)
        MARKER_EXPORTS (exports_text names) :=
  ⟨extract_exports_text names h, rfl⟩

/-- Witness for C8 at the two-method list `["greet", "hello"]`. -/
theorem glue_exports_round_trip_witness :
    extract_exports 2 (exports_text ["greet", "hello"]).data =
      some [("greet", "greet"), ("hello", "hello")] :=
  (glue_exports_round_trip ["greet", "hello"] "" (by decide)).1

end MontyNear
